import Mathlib

/-!
# Verification of the go-scp wire codec and transfer orchestrator

Shallow embedding of the SCP client library (package scp): the command
codec (Command.MarshalText / Command.UnmarshalText), the response and
file-info parsers (ParseResponse, ParseFileInfos, ParseFileTime,
FileInfos.Update, Ack) and the upload data plane of CopyPassThru.

Go strings are modelled as List Char (the sources only manipulate ASCII
bytes of protocol lines); Go's int64 / uint64 / uint32 (os.FileMode) are
modelled as Int / Nat with explicit wrap-around where Go converts; a Go
panic (out-of-range slice or index) is modelled by Option.none; a Go
error return is modelled by Except with the error message as List Char.
Readers are modelled as a finite list of bytes, consumed left to right;
the end of the list is io.EOF.
-/

namespace GoScp

/-! ## Character and digit primitives -/

/-- The NUL byte. -/
def nulChar : Char := Char.ofNat 0

/-- The character for the decimal digit d (valid for d < 10). -/
def digitChar (d : Nat) : Char := Char.ofNat (48 + d)

/-- The numeric value of a digit character. -/
def charDigit (c : Char) : Nat := c.toNat - 48

/-- Is c a digit valid in base b (for b at most 10)?  Mirrors the digit
ranges accepted by Go's strconv.ParseInt for bases 8 and 10. -/
def isDigitBase (b : Nat) (c : Char) : Bool :=
  decide (48 ≤ c.toNat) && decide (c.toNat < 48 + b)

/-- Little-endian base-b digits of n, computed with explicit fuel so that
the definition is structural (kernel-reducible).  The fuel n itself is
always sufficient because n / b < n for b at least 2. -/
def digitsRevAux (b : Nat) : Nat → Nat → List Nat
  | 0, _ => []
  | _ + 1, 0 => []
  | fuel + 1, n + 1 => ((n + 1) % b) :: digitsRevAux b fuel ((n + 1) / b)

/-- Little-endian base-b digits of n. -/
def natDigitsRev (b n : Nat) : List Nat := digitsRevAux b n n

/-- Value of a little-endian digit list. -/
def valLE (b : Nat) (L : List Nat) : Nat :=
  L.foldr (fun d a => a * b + d) 0

/-- strconv.FormatInt(int64(n), b) for a non-negative n: most-significant
digit first, and "0" for zero. -/
def formatNat (b n : Nat) : List Char :=
  if n = 0 then ['0'] else ((natDigitsRev b n).map digitChar).reverse

/-- The numeric value of a digit string (most-significant first). -/
def parseNatBase (b : Nat) (cs : List Char) : Nat :=
  cs.foldl (fun a c => a * b + charDigit c) 0

/-- fmt's %d on an int64: optional minus sign followed by decimal digits. -/
def formatInt (i : Int) : List Char :=
  if i < 0 then '-' :: formatNat 10 i.natAbs else formatNat 10 i.natAbs

/-- Splits the optional leading sign off a numeric string, as Go's
strconv.ParseInt does: returns (isNegative, digits). -/
def splitSign : List Char → Bool × List Char
  | [] => (false, [])
  | c :: rest =>
    if c = '+' then (false, rest)
    else if c = '-' then (true, rest)
    else (false, c :: rest)

/-- Go's strconv.ParseInt(s, b, 64) for base b in {8, 10}: an optional
sign, then a non-empty run of base-b digits, with the int64 range check
(values above 2^63 - 1, or below -2^63, are an ErrRange error). -/
def goParseInt (b : Nat) (s : List Char) : Except Unit Int :=
  match splitSign s with
  | (neg, ds) =>
    if ds = [] then .error ()
    else if ds.all (isDigitBase b) then
      if neg then
        if parseNatBase b ds ≤ 2 ^ 63 then .ok (-(parseNatBase b ds : Int))
        else .error ()
      else
        if parseNatBase b ds ≤ 2 ^ 63 - 1 then .ok (parseNatBase b ds : Int)
        else .error ()
    else .error ()

/-- Go's strconv.Atoi. -/
def goAtoi (s : List Char) : Except Unit Int := goParseInt 10 s

/-! ## Go string helpers used by the sources -/

/-- strings.Split(s, " "): split on every single space. -/
def splitChar (sep : Char) : List Char → List (List Char)
  | [] => [[]]
  | c :: cs =>
    match splitChar sep cs with
    | [] => [[]]
    | w :: ws => if c = sep then [] :: w :: ws else (c :: w) :: ws

/-- Drop leading characters that belong to the cutset. -/
def trimLeft (cut : List Char) : List Char → List Char
  | [] => []
  | c :: cs => if c ∈ cut then trimLeft cut cs else c :: cs

/-- strings.Trim(s, cutset): drop leading and trailing cutset characters. -/
def goTrim (cut : List Char) (s : List Char) : List Char :=
  ((trimLeft cut (trimLeft cut s).reverse)).reverse

/-- strings.ReplaceAll(s, "\n", ""): remove every newline. -/
def stripNewlines (s : List Char) : List Char :=
  s.filter (fun c => c != '\n')

/-- bufio ReadString('\n') over a finite stream: returns the bytes read
(including the delimiter), the rest of the stream, and whether io.EOF was
hit before a newline was found. -/
def readLine : List Char → List Char × List Char × Bool
  | [] => ([], [], true)
  | c :: cs =>
    if c = '\n' then ([c], cs, false)
    else
      match readLine cs with
      | (l, r, e) => (c :: l, r, e)

/-- path.Base from Go's path package: "." for the empty path, trailing
slashes removed, everything up to the final slash discarded, "/" when
nothing is left. -/
def pathBase (p : List Char) : List Char :=
  if p = [] then ['.']
  else
    let q := (p.reverse.dropWhile (fun c => c = '/')).reverse
    if q = [] then ['/']
    else (q.reverse.takeWhile (fun c => c != '/')).reverse

/-! ## The Command codec (unnamed/part_004)

Command.Permissions is an os.FileMode, i.e. a uint32, modelled as a Nat
below 2^32; Command.Size is a uint64 modelled as a Nat below 2^64. -/

/-- A SCP command sent to or from the remote system. -/
structure Command where
  Permissions : Nat
  Size : Nat
  Filename : List Char
deriving DecidableEq

/-- The two failure shapes of Command.UnmarshalText: the fmt.Errorf
"Command ... is invalid" error, and an error propagated from
strconv.ParseInt / strconv.Atoi. -/
inductive CmdError where
  | invalidCommand (text : List Char)
  | parseError
deriving DecidableEq

/-- Command.MarshalText: rejects permissions above os.ModePerm (0o777)
with the error message "bad permissions %o (0%d)"; otherwise produces
"C0" ++ octal permissions ++ " " ++ decimal size ++ " " ++ filename
(note: no trailing newline, and no zero padding of the octal digits). -/
def Command.MarshalText (c : Command) : Except (List Char) (List Char) :=
  if 0o777 < c.Permissions then
    .error (("bad permissions ".toList) ++ formatNat 8 c.Permissions ++
      (" (0".toList) ++ formatNat 10 c.Permissions ++ [')'])
  else
    .ok ('C' :: '0' :: (formatNat 8 c.Permissions ++
      ' ' :: (formatNat 10 c.Size ++ ' ' :: c.Filename)))

/-- Command.UnmarshalText: trims leading and trailing newline/NUL bytes,
splits on single spaces, demands exactly 3 fields, parses the permission
field (after its leading tag byte) as octal and the size field with
Atoi, and wraps the parsed int64 values into uint32 (os.FileMode) and
uint64 (Size).  Option.none models the Go panic of parts[0][1:] when the
first field is empty. -/
def Command.UnmarshalText (text : List Char) : Option (Except CmdError Command) :=
  let parts := splitChar ' ' (goTrim ['\n', nulChar] text)
  match parts with
  | [p0, p1, p2] =>
    if p0 = [] then none
    else
      match goParseInt 8 (p0.drop 1) with
      | .error _ => some (.error .parseError)
      | .ok perms =>
        match goAtoi p1 with
        | .error _ => some (.error .parseError)
        | .ok size =>
          some (.ok
            { Permissions := (perms % (2 ^ 32 : Int)).toNat
              Size := (size % (2 ^ 64 : Int)).toNat
              Filename := p2 })
  | _ => some (.error (.invalidCommand text))

/-! ## The response and file-info parsers (protocol.go) -/

/-- The response type constants of protocol.go. -/
def OkB : Char := Char.ofNat 0

/-- The Warning response type (byte 1). -/
def WarningB : Char := Char.ofNat 1

/-- The Error response type (byte 2). -/
def ErrorB : Char := Char.ofNat 2

/-- The Create response type (byte 'C'). -/
def CreateB : Char := 'C'

/-- The Time response type (byte 'T'). -/
def TimeB : Char := 'T'

/-- The FileInfos structure of protocol.go. -/
structure FileInfos where
  Message : List Char := []
  Filename : List Char := []
  Permissions : List Char := []
  Size : Int := 0
  Atime : Int := 0
  Mtime : Int := 0
deriving DecidableEq

/-- NewFileInfos: the zero FileInfos. -/
def NewFileInfos : FileInfos := {}

/-- FileInfos.Update: each field of the incoming value overwrites the
current one only when it is non-empty / non-zero; a nil incoming pointer
(Option.none) changes nothing. -/
def FileInfos.Update (fileInfos : FileInfos) (nw : Option FileInfos) : FileInfos :=
  match nw with
  | none => fileInfos
  | some n =>
    { Message := fileInfos.Message
      Filename := if n.Filename ≠ [] then n.Filename else fileInfos.Filename
      Permissions := if n.Permissions ≠ [] then n.Permissions else fileInfos.Permissions
      Size := if n.Size ≠ 0 then n.Size else fileInfos.Size
      Atime := if n.Atime ≠ 0 then n.Atime else fileInfos.Atime
      Mtime := if n.Mtime ≠ 0 then n.Mtime else fileInfos.Mtime }

/-- ParseFileInfos: strips newlines, splits on spaces, requires at least
3 fields, parses the size with Atoi and merges filename/permissions/size
into the given FileInfos. -/
def ParseFileInfos (message : List Char) (fileInfos : FileInfos) :
    Except (List Char) FileInfos :=
  let parts := splitChar ' ' (stripNewlines message)
  match parts with
  | p0 :: p1 :: p2 :: _ =>
    match goAtoi p1 with
    | .error _ => .error ("strconv error".toList)
    | .ok size =>
      .ok (fileInfos.Update (some
        { Filename := p2, Permissions := p0, Size := size }))
  | _ => .error ("unable to parse Chmod protocol".toList)

/-- ParseFileTime: strips newlines, splits on spaces, requires at least
3 fields, then takes the unguarded slices parts[0][0:10] and
parts[2][0:10] (Option.none models the Go panic when a field is shorter
than 10 bytes), parses both with Atoi, and stores the value of field 0
into Atime and the value of field 2 into Mtime. -/
def ParseFileTime (message : List Char) (fileInfos : FileInfos) :
    Option (Except (List Char) FileInfos) :=
  let parts := splitChar ' ' (stripNewlines message)
  match parts with
  | p0 :: _ :: p2 :: _ =>
    if p0.length < 10 then none
    else
      match goAtoi (p0.take 10) with
      | .error _ => some (.error ("unable to parse ATime component of message".toList))
      | .ok aTime =>
        if p2.length < 10 then none
        else
          match goAtoi (p2.take 10) with
          | .error _ => some (.error ("unable to parse MTime component of message".toList))
          | .ok mTime =>
            some (.ok (fileInfos.Update (some { Atime := aTime, Mtime := mTime })))
  | _ => some (.error ("unable to parse Time protocol".toList))

/-- The malformed-line error message built at protocol.go line 57. -/
def protocolErrMessage (message : List Char) : List Char :=
  ("Message does not follow scp protocol: ".toList) ++ message ++
    ("\n Cmmmm <length> <filename> or T<mtime> 0 <atime> 0".toList)

/-- The tail of ParseResponse's Time branch (protocol.go lines 88-96):
examine the first byte of the follow-up line and parse it as a Create
line when it is 'C'.  Option.none models the panic of message[0] on an
empty line. -/
def parseCreateAfterTime (fi : FileInfos) (message rest written : List Char) :
    Option (Except (List Char) FileInfos × List Char × List Char) :=
  match message with
  | [] => none
  | c :: _ =>
    if c = CreateB then
      match ParseFileInfos message fi with
      | .error e => some (.error e, rest, written)
      | .ok fi2 => some (.ok fi2, rest, written)
    else some (.ok fi, rest, written)

/-- ParseResponse of protocol.go: reads one status byte; 0 returns the
zero FileInfos at once; otherwise one newline-terminated line is read;
bytes 1 (Warning) and 2 (Error) fail with that line as the error
message; bytes other than 'C' and 'T' fail with the protocol-violation
message; a 'T' line is parsed with ParseFileTime and followed by a
second line (re-read after writing an Ack byte when the stream was at
EOF) which is parsed as a Create line when it starts with 'C'; a 'C'
byte parses the line with ParseFileInfos.  The result is the outcome,
the unconsumed input, and the bytes written (the Ack, when sent). -/
def ParseResponse (input : List Char) :
    Option (Except (List Char) FileInfos × List Char × List Char) :=
  match input with
  | [] => some (.error ("EOF".toList), [], [])
  | b :: rest =>
    if b.toNat = 0 then some (.ok NewFileInfos, rest, [])
    else
      match readLine rest with
      | (message, rest1, eof1) =>
        if eof1 then some (.error ("EOF".toList), rest1, [])
        else if b = WarningB ∨ b = ErrorB then some (.error message, rest1, [])
        else if ¬(b = CreateB ∨ b = TimeB) then
          some (.error (protocolErrMessage message), rest1, [])
        else if b = TimeB then
          match ParseFileTime message NewFileInfos with
          | none => none
          | some (.error e) => some (.error e, rest1, [])
          | some (.ok fi1) =>
            match readLine rest1 with
            | (m2, rest2, eof2) =>
              if eof2 then
                match readLine rest2 with
                | (m3, rest3, eof3) =>
                  if eof3 then some (.error ("EOF".toList), rest3, [OkB])
                  else parseCreateAfterTime fi1 m3 rest3 [OkB]
              else parseCreateAfterTime fi1 m2 rest2 []
        else
          match ParseFileInfos message NewFileInfos with
          | .error e => some (.error e, rest1, [])
          | .ok fi2 => some (.ok fi2, rest1, [])

/-- Ack writes a single zero byte. -/
def Ack : List Char := [OkB]

/-! ## The upload data plane (client.go CopyPassThru)

client.go's checkResponse calls a single-argument ParseResponse whose
Response type (with IsFailure and GetMessage) is not among the files
under src/, so that part is modelled from the spec. -/

/-- Modelled from the spec: the Response value of the single-argument
ParseResponse missing from src/ — a kind byte (0 Ok, 1 Warning, 2 Error)
and a message that is present iff the kind is not Ok. -/
structure Response where
  Typ : Nat
  Message : List Char
deriving DecidableEq

/-- Modelled from the spec: IsFailure holds iff the kind is Warning or
Error. -/
def Response.IsFailure (r : Response) : Bool :=
  decide (r.Typ = 1) || decide (r.Typ = 2)

/-- Modelled from the spec: GetMessage returns the remote message. -/
def Response.GetMessage (r : Response) : List Char := r.Message

/-- Modelled from the spec: the single-argument ParseResponse missing
from src/ — reads exactly one status byte; if it is 0 it returns Ok with
an empty message and consumes nothing further; otherwise it reads one
newline-terminated line as the message.  Returns the response and the
unconsumed input. -/
def ParseResponseSpec (input : List Char) :
    Except (List Char) (Response × List Char) :=
  match input with
  | [] => .error ("EOF".toList)
  | b :: rest =>
    if b.toNat = 0 then .ok ({ Typ := 0, Message := [] }, rest)
    else
      match readLine rest with
      | (line, rest1, eof1) =>
        if eof1 then .error ("EOF".toList)
        else .ok ({ Typ := b.toNat, Message := line }, rest1)

/-- checkResponse of client.go: parse a response and turn a failure
response into a single error carrying the remote message verbatim.
Returns the unconsumed input on success. -/
def checkResponse (input : List Char) : Except (List Char) (List Char) :=
  match ParseResponseSpec input with
  | .error e => .error e
  | .ok (r, rest) =>
    if r.IsFailure then .error r.GetMessage else .ok rest

/-- The data-plane goroutine of CopyPassThru (client.go lines 163-194):
write the header line produced by fmt.Fprintln(w, "C"+permissions, size,
filename); check a response; copy the payload; write a single NUL byte;
check a second response.  Arguments: the permission string, the declared
size, the filename (already path.Base of the remote path), the payload
read from the source reader, and the response stream.  Result: the bytes
written to the remote's input, the unconsumed response stream, and the
error sent to the error channel (if any). -/
def uploadDataPlane (permissions : List Char) (size : Int)
    (filename payload stdout : List Char) :
    List Char × List Char × Option (List Char) :=
  let header := 'C' :: permissions ++ ' ' :: formatInt size ++ ' ' :: filename ++ ['\n']
  match checkResponse stdout with
  | .error e => (header, stdout, some e)
  | .ok rest1 =>
    match checkResponse rest1 with
    | .error e => (header ++ payload ++ [nulChar], rest1, some e)
    | .ok rest2 => (header ++ payload ++ [nulChar], rest2, none)

/-- The error-channel drain loop shared by the transfer calls
(client.go lines 216-220): return the first non-nil error of the queue,
or nil when there is none. -/
def drainErrors : List (Option (List Char)) → Option (List Char)
  | [] => none
  | some e :: _ => some e
  | none :: q => drainErrors q

/-- CopyPassThru's overall result once both goroutines have finished:
drain the error channel holding the data-plane error and the error of
the remote command run (Session.Run), in queue order. -/
def copyPassThruResult (dataErr remoteRunErr : Option (List Char)) :
    Option (List Char) :=
  drainErrors [dataErr, remoteRunErr]

/-- CopyPassThru composed end to end for a given remote path: run the
data plane with the basename of the remote path and drain the errors. -/
def CopyPassThru (remotePath permissions : List Char) (size : Int)
    (payload stdout : List Char) (remoteRunErr : Option (List Char)) :
    List Char × Option (List Char) :=
  match uploadDataPlane permissions size (pathBase remotePath) payload stdout with
  | (written, _, dataErr) => (written, copyPassThruResult dataErr remoteRunErr)

/-! ## Error-channel capacities and task counts (client.go) -/

/-- The capacity of the upload error channel (client.go line 161). -/
def uploadErrChCapacity : Nat := 2

/-- The number of goroutines spawned by CopyPassThru (wg.Add(2)). -/
def uploadTaskCount : Nat := 2

/-- The capacity of the download error channel (client.go line 236). -/
def downloadErrChCapacity : Nat := 4

/-- The number of goroutines spawned by CopyFromRemotePassThru
(wg.Add(1)). -/
def downloadTaskCount : Nat := 1

/-- An upper bound on the error-channel sends a single download
goroutine can perform: every exit path sends at most once explicitly,
and the deferred function (client.go lines 242-248) sends once more. -/
def downloadMaxSendsPerTask : Nat := 2

/-! ## Spec-side definitions

These follow the words of the spec / the claims, to be compared against
the embedded code. -/

/-- Left-pad a digit string with zeros to the given width. -/
def padLeftZeros (w : Nat) (s : List Char) : List Char :=
  List.replicate (w - s.length) '0' ++ s

/-- The encoding claimed by C2: "C" followed by a 4-character
zero-padded octal mode (a '0' then exactly 3 octal digits), the decimal
size, the filename, and a terminating newline. -/
def c2ClaimedEncoding (c : Command) : List Char :=
  'C' :: '0' :: padLeftZeros 3 (formatNat 8 c.Permissions) ++
    ' ' :: formatNat 10 c.Size ++ ' ' :: c.Filename ++ ['\n']

/-- Validity of a signed base-b numeric string per strconv.ParseInt's
documented grammar: an optional sign, a non-empty run of base-b digits,
and a value within the int64 range. -/
def isValidGoIntB (b : Nat) (s : List Char) : Bool :=
  match splitSign s with
  | (neg, ds) =>
    decide (ds ≠ []) && ds.all (isDigitBase b) &&
      (if neg then decide (parseNatBase b ds ≤ 2 ^ 63)
       else decide (parseNatBase b ds ≤ 2 ^ 63 - 1))

/-- The observable outcomes of Command.UnmarshalText. -/
inductive DecodeClass where
  | panics
  | invalid
  | parseFail
  | succeeds
deriving DecidableEq

/-- Classify an UnmarshalText result. -/
def classifyDecode : Option (Except CmdError Command) → DecodeClass
  | none => .panics
  | some (.error (.invalidCommand _)) => .invalid
  | some (.error .parseError) => .parseFail
  | some (.ok _) => .succeeds

/-- The decode classification claimed by C5 as amended: after trimming
leading and trailing NUL/newline bytes and splitting on single spaces, a
field count other than 3 is an invalid-command failure; with 3 fields an
empty first field panics (the unguarded parts[0][1:] slice); otherwise
the decode fails with a parse error exactly when the permission
substring after the leading tag byte is not a valid signed int64 octal
numeral or the size substring is not a valid signed int64 decimal
numeral, and succeeds otherwise. -/
def specDecodeClass (text : List Char) : DecodeClass :=
  match splitChar ' ' (goTrim ['\n', nulChar] text) with
  | [p0, p1, _] =>
    if p0 = [] then .panics
    else if ¬ isValidGoIntB 8 (p0.drop 1) then .parseFail
    else if ¬ isValidGoIntB 10 p1 then .parseFail
    else .succeeds
  | _ => .invalid

/-- Substring containment (strings.Contains). -/
def containsSeq (hay needle : List Char) : Prop :=
  ∃ a b, hay = a ++ needle ++ b

/-! ## Lemmas about digits and numerals -/

theorem charDigit_digitChar : ∀ d, d < 10 → charDigit (digitChar d) = d := by
  decide

theorem toNat_digitChar : ∀ d, d < 10 → (digitChar d).toNat = 48 + d := by
  decide

theorem digitChar_not_special :
    ∀ d, d < 10 → digitChar d ≠ ' ' ∧ digitChar d ≠ '\n' ∧
      digitChar d ≠ nulChar ∧ digitChar d ≠ '+' ∧ digitChar d ≠ '-' := by
  decide

theorem isDigitBase_digitChar {b d : Nat} (hb : b ≤ 10) (hd : d < b) :
    isDigitBase b (digitChar d) = true := by
  have h10 : d < 10 := lt_of_lt_of_le hd hb
  simp only [isDigitBase, toNat_digitChar d h10, Bool.and_eq_true, decide_eq_true_eq]
  omega

theorem digitsRevAux_spec (b : Nat) (hb : 2 ≤ b) :
    ∀ fuel n, n ≤ fuel →
      valLE b (digitsRevAux b fuel n) = n ∧
      ∀ d ∈ digitsRevAux b fuel n, d < b := by
  intro fuel
  induction fuel with
  | zero =>
    intro n hn
    have : n = 0 := Nat.le_zero.mp hn
    subst this
    simp [digitsRevAux, valLE]
  | succ f ih =>
    intro n hn
    match n with
    | 0 => simp [digitsRevAux, valLE]
    | m + 1 =>
      have hdiv : (m + 1) / b ≤ f := by
        have h2 : (m + 1) / b ≤ (m + 1) / 2 := Nat.div_le_div_left hb (by omega)
        have h3 : (m + 1) / 2 ≤ m := by omega
        omega
      have ihm := ih ((m + 1) / b) hdiv
      constructor
      · simp only [digitsRevAux, valLE, List.foldr_cons]
        have h1 : valLE b (digitsRevAux b f ((m + 1) / b)) = (m + 1) / b := ihm.1
        simp only [valLE] at h1
        rw [h1]
        exact Nat.div_add_mod' (m + 1) b
      · intro d hd
        simp only [digitsRevAux, List.mem_cons] at hd
        rcases hd with h | h
        · subst h
          exact Nat.mod_lt _ (by omega)
        · exact ihm.2 d h

theorem valLE_natDigitsRev {b : Nat} (hb : 2 ≤ b) (n : Nat) :
    valLE b (natDigitsRev b n) = n :=
  (digitsRevAux_spec b hb n n le_rfl).1

theorem natDigitsRev_lt {b : Nat} (hb : 2 ≤ b) {n d : Nat}
    (hd : d ∈ natDigitsRev b n) : d < b :=
  (digitsRevAux_spec b hb n n le_rfl).2 d hd

theorem foldr_charDigit_digitChar {b : Nat} (hb : b ≤ 10) :
    ∀ L : List Nat, (∀ d ∈ L, d < b) →
      L.foldr (fun d a => a * b + charDigit (digitChar d)) 0 = valLE b L := by
  intro L
  induction L with
  | nil => intro _; simp [valLE]
  | cons d t ih =>
    intro h
    have hd : d < 10 := lt_of_lt_of_le (h d (List.mem_cons_self d t)) hb
    have ht := ih (fun x hx => h x (List.mem_cons_of_mem d hx))
    simp only [List.foldr_cons, valLE] at ht ⊢
    rw [ht, charDigit_digitChar d hd]

theorem parseNatBase_formatNat {b : Nat} (hb2 : 2 ≤ b) (hb10 : b ≤ 10) (n : Nat) :
    parseNatBase b (formatNat b n) = n := by
  by_cases h0 : n = 0
  · subst h0
    simp only [formatNat, if_pos rfl, parseNatBase, List.foldl_cons, List.foldl_nil]
    have h : charDigit '0' = 0 := by decide
    simp [h]
  · simp only [formatNat, if_neg h0, parseNatBase, List.foldl_reverse, List.foldr_map]
    have := foldr_charDigit_digitChar hb10 (natDigitsRev b n)
      (fun d hd => natDigitsRev_lt hb2 hd)
    simpa [this] using valLE_natDigitsRev hb2 n

theorem formatNat_ne_nil (b n : Nat) (hb2 : 2 ≤ b) : formatNat b n ≠ [] := by
  by_cases h0 : n = 0
  · subst h0; simp [formatNat]
  · simp only [formatNat, if_neg h0]
    intro h
    have hL : natDigitsRev b n = [] := by
      rcases hn : natDigitsRev b n with _ | ⟨d, t⟩
      · rfl
      · rw [hn] at h; simp at h
    have := valLE_natDigitsRev hb2 n
    rw [hL] at this
    simp [valLE] at this
    exact h0 this.symm

theorem formatNat_all_digits {b : Nat} (hb2 : 2 ≤ b) (hb10 : b ≤ 10) (n : Nat) :
    (formatNat b n).all (isDigitBase b) = true := by
  by_cases h0 : n = 0
  · subst h0
    simp only [formatNat, if_pos rfl, if_true, List.all_cons, List.all_nil, Bool.and_true]
    have hb0 : (0 : Nat) < b := by omega
    have h := isDigitBase_digitChar hb10 hb0
    rwa [show digitChar 0 = '0' from by decide] at h
  · simp only [formatNat, if_neg h0, List.all_eq_true]
    intro c hc
    rw [List.mem_reverse, List.mem_map] at hc
    rcases hc with ⟨d, hd, rfl⟩
    exact isDigitBase_digitChar hb10 (natDigitsRev_lt hb2 hd)

theorem mem_formatNat_digit {b : Nat} (hb2 : 2 ≤ b) (hb10 : b ≤ 10) {n : Nat}
    {c : Char} (hc : c ∈ formatNat b n) : ∃ d, d < 10 ∧ c = digitChar d := by
  by_cases h0 : n = 0
  · subst h0
    simp only [formatNat, if_pos rfl, if_true, List.mem_singleton] at hc
    refine ⟨0, by omega, ?_⟩
    rw [show digitChar 0 = '0' from by decide]
    exact hc
  · simp only [formatNat, if_neg h0, List.mem_reverse, List.mem_map] at hc
    rcases hc with ⟨d, hd, rfl⟩
    exact ⟨d, lt_of_lt_of_le (natDigitsRev_lt hb2 hd) hb10, rfl⟩

theorem formatNat_no_char {b n : Nat} (hb2 : 2 ≤ b) (hb10 : b ≤ 10) {c : Char}
    (hc : ∀ d, d < 10 → digitChar d ≠ c) : c ∉ formatNat b n := by
  intro h
  rcases mem_formatNat_digit hb2 hb10 h with ⟨d, hd, he⟩
  exact hc d hd he.symm

theorem formatNat_no_space {b n : Nat} (hb2 : 2 ≤ b) (hb10 : b ≤ 10) :
    ' ' ∉ formatNat b n :=
  formatNat_no_char hb2 hb10 (fun d hd => (digitChar_not_special d hd).1)

theorem formatNat_no_newline {b n : Nat} (hb2 : 2 ≤ b) (hb10 : b ≤ 10) :
    '\n' ∉ formatNat b n :=
  formatNat_no_char hb2 hb10 (fun d hd => (digitChar_not_special d hd).2.1)

theorem formatNat_no_nul {b n : Nat} (hb2 : 2 ≤ b) (hb10 : b ≤ 10) :
    nulChar ∉ formatNat b n :=
  formatNat_no_char hb2 hb10 (fun d hd => (digitChar_not_special d hd).2.2.1)

theorem splitSign_of_digits {b : Nat} {s : List Char}
    (hs : s ≠ []) (hd : s.all (isDigitBase b) = true) :
    splitSign s = (false, s) := by
  rcases s with _ | ⟨c, t⟩
  · exact absurd rfl hs
  · simp only [List.all_cons, Bool.and_eq_true] at hd
    have h48 : 48 ≤ c.toNat := by
      have := hd.1
      simp only [isDigitBase, Bool.and_eq_true, decide_eq_true_eq] at this
      exact this.1
    have hplus : c ≠ '+' := by
      intro h; subst h; revert h48; decide
    have hminus : c ≠ '-' := by
      intro h; subst h; revert h48; decide
    simp [splitSign, hplus, hminus]

theorem goParseInt_formatNat {b n : Nat} (hb2 : 2 ≤ b) (hb10 : b ≤ 10)
    (hn : n ≤ 2 ^ 63 - 1) : goParseInt b (formatNat b n) = .ok (n : Int) := by
  have hne := formatNat_ne_nil b n hb2
  have hall := formatNat_all_digits hb2 hb10 n
  simp only [goParseInt, splitSign_of_digits hne hall, if_neg hne, hall, if_true,
    parseNatBase_formatNat hb2 hb10, if_pos hn]
  rfl

theorem parseNatBase_cons_zero (b : Nat) (cs : List Char) :
    parseNatBase b ('0' :: cs) = parseNatBase b cs := by
  have h : charDigit '0' = 0 := by decide
  simp [parseNatBase, h]

theorem goParseInt_zero_cons_formatNat {b n : Nat} (hb2 : 2 ≤ b) (hb10 : b ≤ 10)
    (hn : n ≤ 2 ^ 63 - 1) :
    goParseInt b ('0' :: formatNat b n) = .ok (n : Int) := by
  have hall : ('0' :: formatNat b n).all (isDigitBase b) = true := by
    simp only [List.all_cons, formatNat_all_digits hb2 hb10 n, Bool.and_true]
    have hb0 : (0 : Nat) < b := by omega
    have h := isDigitBase_digitChar hb10 hb0
    rwa [show digitChar 0 = '0' from by decide] at h
  have hne : ('0' :: formatNat b n) ≠ [] := by simp
  simp only [goParseInt, splitSign_of_digits hne hall, if_neg hne, hall, if_true,
    parseNatBase_cons_zero, parseNatBase_formatNat hb2 hb10, if_pos hn]
  rfl

/-! ## Lemmas about splitting, trimming and line reading -/

theorem splitChar_ne_nil (sep : Char) (s : List Char) : splitChar sep s ≠ [] := by
  induction s with
  | nil => simp [splitChar]
  | cons c cs ih =>
    simp only [splitChar]
    rcases h : splitChar sep cs with _ | ⟨w, ws⟩
    · simp
    · by_cases hc : c = sep <;> simp [hc]

theorem splitChar_of_not_mem {sep : Char} {s : List Char} (h : sep ∉ s) :
    splitChar sep s = [s] := by
  induction s with
  | nil => rfl
  | cons c cs ih =>
    have hc : c ≠ sep := fun he => h (he ▸ List.mem_cons_self c cs)
    have hcs : sep ∉ cs := fun hm => h (List.mem_cons_of_mem c hm)
    simp only [splitChar, ih hcs]
    simp [hc]

theorem splitChar_cons_sep (sep : Char) (ys : List Char) :
    splitChar sep (sep :: ys) = [] :: splitChar sep ys := by
  simp only [splitChar]
  rcases h : splitChar sep ys with _ | ⟨w, ws⟩
  · exact absurd h (splitChar_ne_nil sep ys)
  · simp

theorem splitChar_append {sep : Char} {xs : List Char} (ys : List Char)
    (h : sep ∉ xs) : splitChar sep (xs ++ sep :: ys) = xs :: splitChar sep ys := by
  induction xs with
  | nil => simpa using splitChar_cons_sep sep ys
  | cons c cs ih =>
    have hc : c ≠ sep := fun he => h (he ▸ List.mem_cons_self c cs)
    have hcs : sep ∉ cs := fun hm => h (List.mem_cons_of_mem c hm)
    simp [splitChar, hc, ih hcs]

theorem trimLeft_eq_self_of_all {cut l : List Char}
    (h : ∀ c ∈ l, c ∉ cut) : trimLeft cut l = l := by
  rcases l with _ | ⟨c, cs⟩
  · rfl
  · have := h c (List.mem_cons_self c cs)
    simp [trimLeft, this]

theorem goTrim_eq_self_of_all {cut s : List Char}
    (h : ∀ c ∈ s, c ∉ cut) : goTrim cut s = s := by
  unfold goTrim
  rw [trimLeft_eq_self_of_all h, trimLeft_eq_self_of_all, List.reverse_reverse]
  intro c hc
  exact h c (List.mem_reverse.mp hc)

theorem toNat_emod_pow {n k : Nat} (h : n < 2 ^ k) :
    (((n : Int)) % ((2 : Int) ^ k)).toNat = n := by
  have h1 : (n : Int) < (2 : Int) ^ k := by exact_mod_cast h
  rw [Int.emod_eq_of_lt (Int.natCast_nonneg n) h1]
  simp

theorem trimLeft_eq_self {cut l : List Char}
    (h : ∀ c, l.head? = some c → c ∉ cut) : trimLeft cut l = l := by
  rcases l with _ | ⟨c, cs⟩
  · rfl
  · have := h c rfl
    simp [trimLeft, this]

theorem goTrim_eq_self {cut s : List Char}
    (h1 : ∀ c, s.head? = some c → c ∉ cut)
    (h2 : ∀ c, s.getLast? = some c → c ∉ cut) : goTrim cut s = s := by
  unfold goTrim
  rw [trimLeft_eq_self h1, trimLeft_eq_self, List.reverse_reverse]
  intro c hc
  rw [List.head?_reverse] at hc
  exact h2 c hc

theorem readLine_append {line : List Char} (rest : List Char)
    (h : '\n' ∉ line) : readLine (line ++ '\n' :: rest) = (line ++ ['\n'], rest, false) := by
  induction line with
  | nil => simp [readLine]
  | cons c cs ih =>
    have hc : c ≠ '\n' := fun he => h (he ▸ List.mem_cons_self c cs)
    have hcs : '\n' ∉ cs := fun hm => h (List.mem_cons_of_mem c hm)
    simp [readLine, hc, ih hcs]

end GoScp

open GoScp

/-! ## Claim C1 -/

/-- Claim C1 (evaluation of the code at the failing input): for the Time
line "T1610000000 0 1610000001 0\n" — ParseFileTime receives the line
with the leading 'T' already consumed — the code stores 1610000000 (the
protocol's mtime field, field 0) into Atime and 1610000001 (the
protocol's atime field, field 2) into Mtime, the opposite of what the
claim (and the protocol comment at protocol.go line 59) states. -/
theorem c1_parseFileTime_swaps_time_fields :
    ∃ fi : FileInfos,
      ParseFileTime (("1610000000 0 1610000001 0\n").toList) NewFileInfos =
        some (.ok fi) ∧
      fi.Atime = 1610000000 ∧ fi.Mtime = 1610000001 ∧
      ¬(fi.Mtime = 1610000000 ∧ fi.Atime = 1610000001) := by
  refine ⟨{ Atime := 1610000000, Mtime := 1610000001 }, ?_, rfl, rfl, ?_⟩
  · rfl
  · intro h
    exact absurd h.1 (by decide)

/-! ## Claim C2 -/

/-- Claim C2 (counterexample): at permissions 0o7, size 1, filename "x"
the encoder emits "C07 1 x" — the octal mode is not zero-padded to 3
digits and there is no terminating newline — which differs from the
claimed "C0007 1 x\n". -/
theorem c2_counterexample :
    Command.MarshalText { Permissions := 7, Size := 1, Filename := ['x'] } =
      .ok (("C07 1 x").toList) ∧
    (("C07 1 x").toList) ≠
      c2ClaimedEncoding { Permissions := 7, Size := 1, Filename := ['x'] } := by
  constructor
  · rfl
  · intro h
    have : (("C07 1 x").toList) = (("C0007 1 x\n").toList) := by
      rw [h]; rfl
    exact absurd this (by decide)

/-- Claim C2 (amended): for every permissions value at most 0o777,
MarshalText returns exactly "C", a literal '0', the minimal (unpadded)
octal rendering of the permissions, a space, the decimal size, a space
and the filename — with no terminating newline; when the filename is
newline-free the whole encoding is newline-free. -/
theorem c2_amended (c : Command) (h : c.Permissions ≤ 0o777) :
    Command.MarshalText c =
      .ok ('C' :: '0' :: (formatNat 8 c.Permissions ++
        ' ' :: (formatNat 10 c.Size ++ ' ' :: c.Filename))) ∧
    ('\n' ∉ c.Filename →
      '\n' ∉ 'C' :: '0' :: (formatNat 8 c.Permissions ++
        ' ' :: (formatNat 10 c.Size ++ ' ' :: c.Filename))) := by
  constructor
  · simp [Command.MarshalText, Nat.not_lt.mpr h]
  · intro hfn hmem
    rcases List.mem_cons.mp hmem with h1 | hmem1
    · exact (by decide : ('\n' : Char) ≠ 'C') h1
    rcases List.mem_cons.mp hmem1 with h1 | hmem2
    · exact (by decide : ('\n' : Char) ≠ '0') h1
    rcases List.mem_append.mp hmem2 with h1 | hmem3
    · exact formatNat_no_newline (by norm_num) (by norm_num) h1
    rcases List.mem_cons.mp hmem3 with h1 | hmem4
    · exact (by decide : ('\n' : Char) ≠ ' ') h1
    rcases List.mem_append.mp hmem4 with h1 | hmem5
    · exact formatNat_no_newline (by norm_num) (by norm_num) h1
    rcases List.mem_cons.mp hmem5 with h1 | h1
    · exact (by decide : ('\n' : Char) ≠ ' ') h1
    · exact hfn h1

/-- Witness for the amended C2, at permissions 0o777, size 42, filename
"test": the encoding is exactly "C0777 42 test". -/
theorem c2_amended_witness :
    Command.MarshalText { Permissions := 511, Size := 42, Filename := ("test").toList } =
      .ok (("C0777 42 test").toList) :=
  ((c2_amended { Permissions := 511, Size := 42, Filename := ("test").toList }
    (by decide)).1).trans (by rfl)

/-! ## Claim C3 -/

/-- Claim C3: MarshalText fails exactly when the permissions exceed
0o777, and the error message then contains both the octal and the
decimal rendering of the offending value. -/
theorem c3_bad_permissions (c : Command) :
    ((∃ e, Command.MarshalText c = .error e) ↔ 0o777 < c.Permissions) ∧
    (0o777 < c.Permissions →
      ∃ msg, Command.MarshalText c = .error msg ∧
        containsSeq msg (formatNat 8 c.Permissions) ∧
        containsSeq msg (formatNat 10 c.Permissions)) := by
  constructor
  · constructor
    · rintro ⟨e, he⟩
      by_contra hle
      simp [Command.MarshalText, hle] at he
    · intro h
      exact ⟨("bad permissions ").toList ++ formatNat 8 c.Permissions ++
        (" (0").toList ++ formatNat 10 c.Permissions ++ [')'],
        by simp [Command.MarshalText, h]⟩
  · intro h
    refine ⟨("bad permissions ").toList ++ formatNat 8 c.Permissions ++
      (" (0").toList ++ formatNat 10 c.Permissions ++ [')'],
      by simp [Command.MarshalText, h], ?_, ?_⟩
    · exact ⟨("bad permissions ").toList,
        (" (0").toList ++ formatNat 10 c.Permissions ++ [')'], by simp⟩
    · exact ⟨("bad permissions ").toList ++ formatNat 8 c.Permissions ++ (" (0").toList,
        [')'], by simp⟩

/-- Witness for C3 at permissions 0o1000 = 512: the error message
contains both "1000" (octal) and "512" (decimal). -/
theorem c3_bad_permissions_witness :
    ∃ msg, Command.MarshalText { Permissions := 512, Size := 1, Filename := ['x'] } =
      .error msg ∧
      containsSeq msg (("1000").toList) ∧ containsSeq msg (("512").toList) := by
  obtain ⟨msg, hm, ho, hd⟩ :=
    (c3_bad_permissions { Permissions := 512, Size := 1, Filename := ['x'] }).2 (by decide)
  refine ⟨msg, hm, ?_, ?_⟩
  · rw [show (("1000").toList) = formatNat 8 512 from by decide]
    exact ho
  · rw [show (("512").toList) = formatNat 10 512 from by decide]
    exact hd

/-! ## Claim C4 -/

/-- Claim C4: for permissions at most 0o777, sizes below 2^31 and
filenames free of spaces, newlines and NUL bytes, UnmarshalText applied
to the bytes produced by MarshalText succeeds and recovers exactly the
original permissions, size and filename. -/
theorem c4_marshal_roundtrip (p size : Nat) (fn : List Char)
    (hp : p ≤ 0o777) (hs : size < 2 ^ 31)
    (hfn : ∀ c ∈ fn, c ≠ ' ' ∧ c ≠ '\n' ∧ c ≠ nulChar) :
    ∃ enc, Command.MarshalText { Permissions := p, Size := size, Filename := fn } = .ok enc ∧
      Command.UnmarshalText enc =
        some (.ok { Permissions := p, Size := size, Filename := fn }) := by
  have hb8 : (2 : Nat) ≤ 8 := by norm_num
  have hb8t : (8 : Nat) ≤ 10 := by norm_num
  have hb10 : (2 : Nat) ≤ 10 := by norm_num
  have hb10t : (10 : Nat) ≤ 10 := by norm_num
  set oct := formatNat 8 p with hoct
  set dec := formatNat 10 size with hdec
  set enc := 'C' :: '0' :: (oct ++ ' ' :: (dec ++ ' ' :: fn)) with henc
  refine ⟨enc, by simp [Command.MarshalText, Nat.not_lt.mpr hp], ?_⟩
  -- the trim is the identity: no character of the encoding is a newline or NUL
  have htrim : goTrim ['\n', nulChar] enc = enc := by
    apply goTrim_eq_self_of_all
    intro c hc
    have hprop : c ≠ '\n' ∧ c ≠ nulChar := by
      rcases List.mem_cons.mp hc with h1 | hc1
      · subst h1; exact ⟨by decide, by decide⟩
      rcases List.mem_cons.mp hc1 with h1 | hc2
      · subst h1; exact ⟨by decide, by decide⟩
      rcases List.mem_append.mp hc2 with h1 | hc3
      · exact ⟨fun he => formatNat_no_newline hb8 hb8t (he ▸ h1),
          fun he => formatNat_no_nul hb8 hb8t (he ▸ h1)⟩
      rcases List.mem_cons.mp hc3 with h1 | hc4
      · subst h1; exact ⟨by decide, by decide⟩
      rcases List.mem_append.mp hc4 with h1 | hc5
      · exact ⟨fun he => formatNat_no_newline hb10 hb10t (he ▸ h1),
          fun he => formatNat_no_nul hb10 hb10t (he ▸ h1)⟩
      rcases List.mem_cons.mp hc5 with h1 | h1
      · subst h1; exact ⟨by decide, by decide⟩
      · exact ⟨(hfn c h1).2.1, (hfn c h1).2.2⟩
    intro hcut
    rcases List.mem_cons.mp hcut with h1 | hcut1
    · exact hprop.1 h1
    rcases List.mem_cons.mp hcut1 with h1 | hcut2
    · exact hprop.2 h1
    · exact absurd hcut2 (List.not_mem_nil c)
  -- splitting the encoding yields exactly the three fields
  have hsplit : splitChar ' ' enc = [('C' :: '0' :: oct), dec, fn] := by
    have hp0 : ' ' ∉ ('C' :: '0' :: oct) := by
      intro hm
      rcases List.mem_cons.mp hm with h1 | hm1
      · exact absurd h1.symm (by decide)
      rcases List.mem_cons.mp hm1 with h1 | hm2
      · exact absurd h1.symm (by decide)
      · exact formatNat_no_space hb8 hb8t hm2
    have hdecs : ' ' ∉ dec := formatNat_no_space hb10 hb10t
    have hfns : ' ' ∉ fn := fun hm => (hfn ' ' hm).1 rfl
    have h1 : enc = ('C' :: '0' :: oct) ++ ' ' :: (dec ++ ' ' :: fn) := by
      simp [henc]
    rw [h1, splitChar_append _ hp0, splitChar_append _ hdecs,
      splitChar_of_not_mem hfns]
  -- now run the decoder
  unfold Command.UnmarshalText
  simp only [htrim, hsplit]
  have hne : ('C' :: '0' :: oct) ≠ [] := by simp
  rw [if_neg hne]
  have hdrop : ('C' :: '0' :: oct).drop 1 = '0' :: oct := rfl
  rw [hdrop, hoct, goParseInt_zero_cons_formatNat hb8 hb8t (by omega)]
  rw [hdec, show goAtoi (formatNat 10 size) = Except.ok ((size : Int)) from
    goParseInt_formatNat hb10 hb10t (by omega)]
  have e1 : (((p : Int)) % (2 ^ 32 : Int)).toNat = p := toNat_emod_pow (by omega)
  have e2 : (((size : Int)) % (2 ^ 64 : Int)).toNat = size := toNat_emod_pow (by omega)
  norm_num at e1 e2
  simp [e1, e2]

/-- Witness for C4 at permissions 0o777, size 42, filename "test". -/
theorem c4_marshal_roundtrip_witness :
    ∃ enc, Command.MarshalText
        { Permissions := 511, Size := 42, Filename := ("test").toList } = .ok enc ∧
      Command.UnmarshalText enc =
        some (.ok { Permissions := 511, Size := 42, Filename := ("test").toList }) :=
  c4_marshal_roundtrip 511 42 (("test").toList) (by decide) (by decide) (by decide)

/-! ## Claim C5 -/

/-- goParseInt succeeds exactly on the strings the spec-side validity
predicate accepts. -/
theorem goParseInt_ok_iff_valid (b : Nat) (s : List Char) :
    (∃ v, goParseInt b s = .ok v) ↔ isValidGoIntB b s = true := by
  unfold goParseInt isValidGoIntB
  rcases h : splitSign s with ⟨neg, ds⟩
  by_cases h0 : ds = []
  · subst h0; simp
  · by_cases hall : ds.all (isDigitBase b) = true
    · cases neg
      · by_cases hr : parseNatBase b ds ≤ 9223372036854775807 <;>
          simp [h0, hall, hr]
      · by_cases hr : parseNatBase b ds ≤ 9223372036854775808 <;>
          simp [h0, hall, hr]
    · simp [h0, hall]

/-- goParseInt fails exactly on the strings the spec-side validity
predicate rejects. -/
theorem goParseInt_error_iff_invalid (b : Nat) (s : List Char) :
    goParseInt b s = .error () ↔ isValidGoIntB b s = false := by
  constructor
  · intro he
    by_contra hne
    have hv : isValidGoIntB b s = true := by
      cases hval : isValidGoIntB b s
      · exact absurd hval hne
      · rfl
    obtain ⟨v, hok⟩ := (goParseInt_ok_iff_valid b s).mpr hv
    rw [he] at hok
    exact Except.noConfusion hok
  · intro hf
    rcases hv : goParseInt b s with e | v
    · rfl
    · have : isValidGoIntB b s = true := (goParseInt_ok_iff_valid b s).mp ⟨v, hv⟩
      rw [hf] at this
      exact Bool.noConfusion this

/-- Claim C5 (counterexample): the input "C0777 -5 test" has a negative
size field, which the claim says is rejected with a parse error; the
decoder instead succeeds, wrapping -5 into the uint64 2^64 - 5. -/
theorem c5_counterexample :
    Command.UnmarshalText (("C0777 -5 test").toList) =
      some (.ok { Permissions := 511
                  Size := 18446744073709551611
                  Filename := ("test").toList }) := by
  rfl

/-- Claim C5 (amended): the classification of UnmarshalText on every
input matches the spec-side classifier: field count other than 3 (after
two-sided NUL/newline trim and single-space split) gives the
invalid-command failure; with 3 fields an empty first field panics via
the unguarded parts[0][1:]; otherwise a parse failure occurs exactly
when the permission substring after the tag byte is not a valid signed
int64 octal numeral or the size substring is not a valid signed int64
decimal numeral (so negative sizes are accepted), and the decode
succeeds otherwise. -/
theorem c5_amended (text : List Char) :
    classifyDecode (Command.UnmarshalText text) = specDecodeClass text := by
  unfold Command.UnmarshalText specDecodeClass
  rcases hsp : splitChar ' ' (goTrim ['\n', nulChar] text) with
    _ | ⟨p0, _ | ⟨p1, _ | ⟨p2, _ | ⟨p3, rest⟩⟩⟩⟩
  · rfl
  · rfl
  · rfl
  · by_cases hp0 : p0 = []
    · simp [hp0, classifyDecode]
    · rcases hperm : goParseInt 8 (p0.drop 1) with e | v
      · have hperm0 : goParseInt 8 (p0.drop 1) = .error () := by
          cases e; exact hperm
        have hinv : isValidGoIntB 8 (p0.drop 1) = false :=
          (goParseInt_error_iff_invalid 8 (p0.drop 1)).mp hperm0
        rw [List.drop_one] at hperm0 hinv
        simp [hp0, hperm0, hinv, classifyDecode]
      · have hval : isValidGoIntB 8 (p0.drop 1) = true :=
          (goParseInt_ok_iff_valid 8 (p0.drop 1)).mp ⟨v, hperm⟩
        rw [List.drop_one] at hperm hval
        rcases hsize : goAtoi p1 with e2 | v2
        · have hsize0 : goParseInt 10 p1 = .error () := by
            cases e2; exact hsize
          have hinv2 : isValidGoIntB 10 p1 = false :=
            (goParseInt_error_iff_invalid 10 p1).mp hsize0
          simp [hp0, hperm, hsize0, hval, hinv2, classifyDecode, goAtoi]
        · have hval2 : isValidGoIntB 10 p1 = true :=
            (goParseInt_ok_iff_valid 10 p1).mp ⟨v2, hsize⟩
          simp [hp0, hperm, hsize, hval, hval2, classifyDecode]
  · rfl

/-! ## Claim C6 -/

/-- Claim C6: ParseResponse reads exactly one status byte; on byte 0 it
returns at once with the zero FileInfos, consuming nothing further and
writing nothing; on byte 1 (Warning) or 2 (Error) it reads exactly one
newline-terminated line and fails with that line, delimiter included,
as the verbatim error message. -/
theorem c6_parse_response_status (rest line : List Char) (hnl : '\n' ∉ line) :
    ParseResponse (OkB :: rest) = some (.ok NewFileInfos, rest, []) ∧
    ParseResponse (WarningB :: (line ++ '\n' :: rest)) =
      some (.error (line ++ ['\n']), rest, []) ∧
    ParseResponse (ErrorB :: (line ++ '\n' :: rest)) =
      some (.error (line ++ ['\n']), rest, []) := by
  refine ⟨rfl, ?_, ?_⟩
  · simp +decide [ParseResponse, readLine_append rest hnl, WarningB, ErrorB, OkB]
  · simp +decide [ParseResponse, readLine_append rest hnl, WarningB, ErrorB, OkB]

/-- Witness for C6: status byte 1 followed by "disk full\n" fails with
exactly the message "disk full\n". -/
theorem c6_parse_response_witness :
    ParseResponse (WarningB :: ((("disk full").toList) ++ '\n' :: [])) =
      some (.error (("disk full\n").toList), [], []) := by
  have h := (c6_parse_response_status [] (("disk full").toList) (by decide)).2.1
  rw [h]
  rfl

/-! ## Claim C7 -/

/-- checkResponse on an Ok status byte succeeds and consumes exactly
that byte. -/
theorem checkResponse_okByte (x : List Char) : checkResponse (OkB :: x) = .ok x := rfl

/-- Claim C7: when both acknowledgment responses are Ok and the remote
command succeeds, the data plane writes exactly the header line
"C" ++ permissions ++ " " ++ size ++ " " ++ basename(remotePath) ++ "\n",
then the payload (the declared size bytes), then one NUL terminator, in
that order, consuming one response byte after the header and one after
the terminator, and the call returns no error. -/
theorem c7_upload_data_plane (permissions remotePath payload rest : List Char)
    (size : Int) (hsize : size = (payload.length : Int)) :
    uploadDataPlane permissions size (pathBase remotePath) payload (OkB :: OkB :: rest) =
      (('C' :: permissions ++ ' ' :: formatInt size ++ ' ' :: pathBase remotePath ++ ['\n'])
        ++ payload ++ [nulChar], rest, none) ∧
    CopyPassThru remotePath permissions size payload (OkB :: OkB :: rest) none =
      (('C' :: permissions ++ ' ' :: formatInt size ++ ' ' :: pathBase remotePath ++ ['\n'])
        ++ payload ++ [nulChar], none) := by
  have h1 : uploadDataPlane permissions size (pathBase remotePath) payload
      (OkB :: OkB :: rest) =
      (('C' :: permissions ++ ' ' :: formatInt size ++ ' ' :: pathBase remotePath ++ ['\n'])
        ++ payload ++ [nulChar], rest, none) := by
    rfl
  exact ⟨h1, by unfold CopyPassThru; rw [h1]; rfl⟩

/-- Witness for C7 at payload "It Works\n" (9 bytes), permissions
"0777" and remote path "test.txt": the header is exactly
"C0777 9 test.txt\n", followed by the payload and a single NUL. -/
theorem c7_upload_data_plane_witness :
    uploadDataPlane (("0777").toList) 9 (pathBase (("test.txt").toList))
      (("It Works\n").toList) (OkB :: OkB :: []) =
      ((("C0777 9 test.txt\n").toList) ++ (("It Works\n").toList) ++ [nulChar],
        [], none) := by
  have h := (c7_upload_data_plane (("0777").toList) (("test.txt").toList)
    (("It Works\n").toList) [] 9 (by decide)).1
  rw [h]
  rfl

/-! ## Claim C8 -/

/-- Claim C8: FileInfos.Update overwrites each of filename, permissions,
size, atime and mtime only when the incoming value is non-empty or
non-zero, keeps the previous value otherwise, and an update from a nil
source changes nothing. -/
theorem c8_update_field_merge (fi n : FileInfos) :
    fi.Update none = fi ∧
    (fi.Update (some n)).Message = fi.Message ∧
    (n.Filename = [] → (fi.Update (some n)).Filename = fi.Filename) ∧
    (n.Filename ≠ [] → (fi.Update (some n)).Filename = n.Filename) ∧
    (n.Permissions = [] → (fi.Update (some n)).Permissions = fi.Permissions) ∧
    (n.Permissions ≠ [] → (fi.Update (some n)).Permissions = n.Permissions) ∧
    (n.Size = 0 → (fi.Update (some n)).Size = fi.Size) ∧
    (n.Size ≠ 0 → (fi.Update (some n)).Size = n.Size) ∧
    (n.Atime = 0 → (fi.Update (some n)).Atime = fi.Atime) ∧
    (n.Atime ≠ 0 → (fi.Update (some n)).Atime = n.Atime) ∧
    (n.Mtime = 0 → (fi.Update (some n)).Mtime = fi.Mtime) ∧
    (n.Mtime ≠ 0 → (fi.Update (some n)).Mtime = n.Mtime) := by
  refine ⟨rfl, rfl, ?_, ?_, ?_, ?_, ?_, ?_, ?_, ?_, ?_, ?_⟩ <;>
    intro h <;> simp [FileInfos.Update, h]

/-- Witness for C8: a non-empty incoming filename overwrites, a zero
incoming size leaves the previous size in place. -/
theorem c8_update_field_merge_witness :
    (FileInfos.Update { Filename := ['a'], Size := 7 }
      (some { Filename := ['b'] })).Filename = ['b'] ∧
    (FileInfos.Update { Filename := ['a'], Size := 7 }
      (some { Filename := ['b'] })).Size = 7 := by
  constructor
  · exact (c8_update_field_merge { Filename := ['a'], Size := 7 }
      { Filename := ['b'] }).2.2.2.1 (by decide)
  · exact (c8_update_field_merge { Filename := ['a'], Size := 7 }
      { Filename := ['b'] }).2.2.2.2.2.2.1 (by decide)

/-! ## Claim C9 -/

/-- Claim C9 (counterexample): the download error channel of
CopyFromRemotePassThru has capacity 4 (client.go line 236) while the
download spawns a single producer task, so the claimed
"capacity equals the number of producer tasks" fails for download. -/
theorem c9_counterexample :
    downloadErrChCapacity = 4 ∧ downloadTaskCount = 1 ∧
    downloadErrChCapacity ≠ downloadTaskCount := by
  refine ⟨rfl, rfl, by decide⟩

/-- Claim C9 (amended): the upload channel capacity equals its two
producer tasks; the download channel capacity is 4, which is at least
the at-most-two sends its single producer performs, so no task blocks
reporting a failure; and the drain loop returns the first error
enqueued. -/
theorem c9_amended :
    uploadErrChCapacity = uploadTaskCount ∧
    downloadTaskCount * downloadMaxSendsPerTask ≤ downloadErrChCapacity ∧
    uploadTaskCount ≤ uploadErrChCapacity ∧
    (∀ q : List (Option (List Char)), drainErrors q = (q.filterMap id).head?) := by
  refine ⟨rfl, by decide, by decide, ?_⟩
  intro q
  induction q with
  | nil => rfl
  | cons h t ih => cases h <;> simp [drainErrors, ih]

/-! ## Claim C10 -/

/-- Claim C10: ParseFileTime returns normally (some result or error) on
every message whose newline-stripped split has at least 3 fields with
fields 0 and 2 at least 10 characters long; and it panics (none) on the
concrete message "1 0 2 0", which has 4 fields but a short field 0, via
the unguarded slice parts[0][0:10]. -/
theorem c10_parsefiletime_panic_freedom :
    (∀ (msg : List Char) (fi : FileInfos) (p0 p1 p2 : List Char)
        (rest : List (List Char)),
      splitChar ' ' (stripNewlines msg) = p0 :: p1 :: p2 :: rest →
      10 ≤ p0.length → 10 ≤ p2.length →
      (ParseFileTime msg fi).isSome = true) ∧
    ParseFileTime (("1 0 2 0").toList) NewFileInfos = none := by
  constructor
  · intro msg fi p0 p1 p2 rest hsplit h0 h2
    simp only [ParseFileTime, hsplit]
    rw [if_neg (by omega)]
    rcases goAtoi (p0.take 10) with e | a
    · simp
    · have hn2 : ¬ p2.length < 10 := by omega
      simp only [hn2, if_false]
      rcases goAtoi (p2.take 10) with e | m <;> simp
  · rfl

/-- Witness for C10 at the well-formed time line
"1610000000 0 1610000001 0\n": both outer fields are 10 characters long
and the parser returns normally. -/
theorem c10_panic_freedom_witness :
    (ParseFileTime (("1610000000 0 1610000001 0\n").toList) NewFileInfos).isSome = true :=
  c10_parsefiletime_panic_freedom.1 (("1610000000 0 1610000001 0\n").toList)
    NewFileInfos (("1610000000").toList) (("0").toList) (("1610000001").toList)
    [("0").toList] (by rfl) (by decide) (by decide)
